import Mathlib

/-!
Shallow embedding of the Certificate Authority & Federated Identity
subsystem of the teleport repository (lib/auth/init.go and
lib/auth/oidc.go), together with theorems settling the frozen claims
about the natural-language specification.

Conventions used throughout:
* raw byte buffers holding key material are identified by their key
  material, modelled as `Nat`; PEM (re-)marshalling preserves material;
* external collaborator results (backend lookups, network calls,
  cryptographic generation) are supplied through explicit oracle /
  environment records, so that every function stays executable;
* Go `error` results are modelled by `Except TraceErr`, where `TraceErr`
  mirrors the gravitational/trace error taxonomy used by the code, and
  `trace.Wrap` preserves the wrapped error class (`trace.Wrap(nil)` is
  `nil`, which is why some paths return success carrying no claims).
-/

/-- Decidable equality of Except values, used to evaluate the models
at concrete inputs. -/
instance instDecEqExcept {ε α : Type} [DecidableEq ε] [DecidableEq α] :
    DecidableEq (Except ε α)
  | .error a, .error b =>
    if h : a = b then .isTrue (by rw [h]) else .isFalse (by simp [h])
  | .error _, .ok _ => .isFalse (by simp)
  | .ok _, .error _ => .isFalse (by simp)
  | .ok a, .ok b =>
    if h : a = b then .isTrue (by rw [h]) else .isFalse (by simp [h])

namespace Teleport

/-- Error taxonomy of gravitational/trace as used by lib/auth:
classified errors plus a generic wrapped class for parse/backend
failures re-raised via `trace.Wrap` or `trace.Errorf`. -/
inductive TraceErr where
  | notFound
  | badParameter
  | alreadyExists
  | accessDenied
  | oauth2
  | wrapped
  | generic
deriving DecidableEq, Repr

/-- One TLS key pair of a certificate authority
(services.TLSKeyPair: x509 certificate PEM plus private key PEM). -/
structure TLSKeyPair where
  cert : Nat
  key : Nat
deriving DecidableEq, Repr

/-- Certificate authority record
(services.CertAuthoritySpecV2 restricted to the key material that
Init manipulates: SSH signing keys, SSH checking keys, TLS key pairs). -/
structure CertAuthority where
  signingKeys : List Nat
  checkingKeys : List Nat
  tlsKeyPairs : List TLSKeyPair
deriving DecidableEq, Repr

/-- The portion of the backend state read and written by the CA
bootstrap part of auth.Init: the User CA and Host CA records keyed by
the cluster name, the cluster ID stored in the cluster config, and the
stored cluster name.  An empty-string cluster ID in the Go code is
modelled as `none`. -/
structure BackendState where
  userCA : Option CertAuthority
  hostCA : Option CertAuthority
  clusterID : Option Nat
  clusterName : Option String
deriving DecidableEq, Repr

/-- Oracle for cryptographic generation and parsing used by Init:
`fresh n` is the n-th freshly generated private key material
(asrv.GenerateKeyPair and the key generated inside
tlsca.GenerateSelfSignedCA), `pubOf` derives the public key,
`certOf k` is the self-signed x509 certificate over private key `k`,
`uuidOf n` is the n-th random cluster identifier (uuid.New),
`parseRaw` is ssh.ParseRawPrivateKey on stored signing-key PEM
(returning the key material), and `isRSA` is the `*rsa.PrivateKey`
type assertion. -/
structure CAKeyGen where
  fresh : Nat → Nat
  pubOf : Nat → Nat
  certOf : Nat → Nat
  uuidOf : Nat → Nat
  parseRaw : Nat → Option Nat
  isRSA : Nat → Bool

/-- Init, cluster-ID step (init.go lines 196-211): reuse the stored
cluster ID when one exists, otherwise generate a fresh random one.
The fresh-randomness counter is threaded through and returned. -/
def stepClusterID (g : CAKeyGen) (i : Nat) (s : BackendState) : BackendState × Nat :=
  match s.clusterID with
  | some _ => (s, i)
  | none => ({ s with clusterID := some (g.uuidOf i) }, i + 1)

/-- Init, cluster-name step (init.go lines 213-241): the first
successful SetClusterName wins; when the name is already set the
AlreadyExists error is swallowed and the stored name is kept (the
configured name is overridden, with a warning). -/
def stepClusterName (cfgName : String) (s : BackendState) : BackendState :=
  match s.clusterName with
  | some _ => s
  | none => { s with clusterName := some cfgName }

/-- Init, user CA step (init.go lines 272-325).  Absent: generate an
SSH key pair and a self-signed TLS CA (with its own fresh key) and
persist both under one record.  Present with no TLS key pairs:
generate a self-signed TLS CA with a fresh key (tlsca.GenerateSelfSignedCA)
and backfill it.  Present with TLS material: no change. -/
def stepUserCA (g : CAKeyGen) (i : Nat) (s : BackendState) : BackendState × Nat :=
  match s.userCA with
  | none =>
    let priv := g.fresh i
    let tlsKey := g.fresh (i + 1)
    let ca : CertAuthority :=
      { signingKeys := [priv], checkingKeys := [g.pubOf priv],
        tlsKeyPairs := [⟨g.certOf tlsKey, tlsKey⟩] }
    ({ s with userCA := some ca }, i + 2)
  | some ca =>
    if ca.tlsKeyPairs = [] then
      let tlsKey := g.fresh i
      ({ s with userCA := some ({ ca with tlsKeyPairs := [⟨g.certOf tlsKey, tlsKey⟩] }) }, i + 1)
    else (s, i)

/-- Init, host CA step (init.go lines 327-386).  Absent: as for the
user CA.  Present with no TLS key pairs: parse the first SSH signing
key (ssh.ParseRawPrivateKey), require it to be RSA, and generate the
TLS CA reusing that private key
(tlsca.GenerateSelfSignedCAWithPrivateKey, whose key PEM re-marshals
the same material).  Indexing signingKeys[0] on an authority with no
signing keys is a Go panic, modelled as an error. -/
def stepHostCA (g : CAKeyGen) (i : Nat) (s : BackendState) :
    Except TraceErr (BackendState × Nat) :=
  match s.hostCA with
  | none =>
    let priv := g.fresh i
    let tlsKey := g.fresh (i + 1)
    let ca : CertAuthority :=
      { signingKeys := [priv], checkingKeys := [g.pubOf priv],
        tlsKeyPairs := [⟨g.certOf tlsKey, tlsKey⟩] }
    .ok ({ s with hostCA := some ca }, i + 2)
  | some ca =>
    if ca.tlsKeyPairs = [] then
      match ca.signingKeys with
      | [] => .error .generic
      | k :: _ =>
        match g.parseRaw k with
        | none => .error .wrapped
        | some m =>
          if g.isRSA m then
            .ok ({ s with hostCA := some ({ ca with tlsKeyPairs := [⟨g.certOf m, m⟩] }) }, i)
          else .error .badParameter
    else .ok (s, i)

/-- The CA bootstrap portion of auth.Init (init.go lines 196-386):
cluster ID, cluster name, user CA, host CA, in program order.
`cfgName` is cfg.ClusterName; `i` indexes the fresh-randomness
supply. -/
def initModel (g : CAKeyGen) (i : Nat) (cfgName : String) (s : BackendState) :
    Except TraceErr (BackendState × Nat) :=
  let p1 := stepClusterID g i s
  let s2 := stepClusterName cfgName p1.1
  let p3 := stepUserCA g p1.2 s2
  stepHostCA g p3.2 p3.1

/-! Identity codec (init.go lines 546-804).

Byte buffers are modelled symbolically: an SSH buffer either is empty,
parses as a private key, parses as an authorized key holding a bare
public key, parses as an authorized key holding a certificate, or
parses as nothing; a TLS buffer either is empty, parses as an x509
certificate, or parses as nothing.  Key material is identified across
representations, so ssh.ParsePrivateKey on `privKey k` yields a signer
whose public key is `k`, and an x509 key pair matches when the
certificate was issued for material `k`. -/

/-- Data of a parsed ssh.Certificate: valid principals, the
permissions extensions map, and the certified public key material
(used by ssh.NewCertSigner to check that certificate and private key
belong together). -/
structure SSHCertData where
  validPrincipals : List String
  extensions : List (String × String)
  certKey : Nat
deriving DecidableEq, Repr

/-- Symbolic SSH byte buffer. -/
inductive SSHBytes where
  | empty
  | privKey (k : Nat)
  | pubKey (k : Nat)
  | certBytes (c : SSHCertData)
  | junk
deriving DecidableEq, Repr

/-- Result of ssh.ParseAuthorizedKey: a bare public key or a
certificate. -/
inductive ParsedPubKey where
  | bare (k : Nat)
  | certificate (c : SSHCertData)
deriving DecidableEq, Repr

/-- ssh.ParseAuthorizedKey on a symbolic buffer. -/
def parseAuthorizedKey : SSHBytes → Option ParsedPubKey
  | .pubKey k => some (.bare k)
  | .certBytes c => some (.certificate c)
  | _ => none

/-- ssh.ParsePrivateKey on a symbolic buffer, returning the signer's
key material. -/
def parsePrivateKey : SSHBytes → Option Nat
  | .privKey k => some k
  | _ => none

/-- Subject of a parsed TLS certificate that tlsca.FromSubject accepts:
a username and a nonempty list of groups (the first group is cast to
the identity role). -/
structure TLSSubject where
  username : String
  group0 : String
  restGroups : List String
deriving DecidableEq, Repr

/-- Data of a parsed x509 certificate: the decoded subject (none when
tlsca.FromSubject fails), the issuer organization list, and the
certified public key material (used by tls.X509KeyPair). -/
structure TLSCertData where
  subject : Option TLSSubject
  issuerOrg : List String
  certKey : Nat
deriving DecidableEq, Repr

/-- Symbolic TLS byte buffer. -/
inductive TLSBytes where
  | empty
  | certBytes (c : TLSCertData)
  | junk
deriving DecidableEq, Repr

/-- tlsca.ParseCertificatePEM on a symbolic buffer. -/
def parseCertificatePEM : TLSBytes → Option TLSCertData
  | .certBytes c => some c
  | _ => none

/-- An SSH signer: either bound to a certificate (ssh.NewCertSigner)
or a bare key signer.  The code under verification always produces the
certificate-bound form. -/
inductive SignerModel where
  | certSigner (c : SSHCertData) (k : Nat)
  | bareSigner (k : Nat)
deriving DecidableEq, Repr

/-- teleport.Role is a string; IdentityID equality in the source is on
(role, host id) only. -/
structure IdentityID where
  role : String
  hostUUID : String
  nodeName : String
deriving DecidableEq, Repr

/-- The Identity bundle (init.go lines 546-565). -/
structure Identity where
  id : IdentityID
  keyBytes : SSHBytes
  certBytes : SSHBytes
  tlsCertBytes : TLSBytes
  tlsCACertsBytes : List TLSBytes
  keySigner : Option SignerModel
  cert : Option SSHCertData
  clusterName : String
deriving DecidableEq, Repr

/-- Extension-map lookup: a Go map index yields "" for an absent
key. -/
def extLookup (exts : List (String × String)) (k : String) : String :=
  match exts.find? (fun p => p.1 == k) with
  | some p => p.2
  | none => ""

/-- utils.CertExtensionRole. -/
def certExtensionRole : String := "x-teleport-role"

/-- utils.CertExtensionAuthority. -/
def certExtensionAuthority : String := "x-teleport-authority"

/-- Modelled from the spec: teleport.ParseRole / role.Check are not
under src; a role string must name one of the known teleport roles. -/
def parseRole (s : String) : Except TraceErr String :=
  if ["Admin", "User", "Auth", "Proxy", "Node", "Nop"].contains s then .ok s
  else .error .badParameter

/-- Modelled from the spec: teleport.ParseRoles is not under src; it
splits a comma-separated role list and fails on any unknown role
name.  The split works on the character list so that it stays
kernel-reducible. -/
def parseRoles (s : String) : Except TraceErr (List String) :=
  ((s.toList).splitOn ',').mapM (fun cs => parseRole (String.mk cs))

/-- HasTLSConfig (init.go lines 587-590): true when both TLS CA
certificates and a TLS certificate are stored. -/
def Identity.HasTLSConfig (i : Identity) : Bool :=
  !i.tlsCACertsBytes.isEmpty && !(i.tlsCertBytes == TLSBytes.empty)

/-- tls.X509KeyPair: the certificate must parse and its public key
must match the private key parsed from the key bytes. -/
def x509KeyPair (certB : TLSBytes) (keyB : SSHBytes) : Option Unit :=
  match parseCertificatePEM certB, parsePrivateKey keyB with
  | some c, some k => if c.certKey = k then some () else none
  | _, _ => none

/-- Parse every stored CA certificate for the trust pool; any
unparseable entry fails. -/
def parseCAPool : List TLSBytes → Option (List TLSCertData)
  | [] => some []
  | b :: rest =>
    match parseCertificatePEM b, parseCAPool rest with
    | some c, some pool => some (c :: pool)
    | _, _ => none

/-- EncodeClusterName (external util): an injective encoding of the
cluster name used as TLS server name; the encoding itself is not
claim-relevant. -/
def encodeClusterName (s : String) : String := s

/-- The mutual-TLS configuration assembled by Identity.TLSConfig. -/
structure TLSConfigModel where
  cert : TLSBytes
  key : SSHBytes
  pool : List TLSCertData
  serverName : String
deriving DecidableEq, Repr

/-- Identity.TLSConfig (init.go lines 618-642): NotFound when no TLS
credentials are stored, otherwise parse the key pair and every trust
root and assemble the configuration. -/
def Identity.TLSConfig (i : Identity) (cipherSuites : List Nat) :
    Except TraceErr TLSConfigModel :=
  if !i.HasTLSConfig then .error .notFound
  else
    match x509KeyPair i.tlsCertBytes i.keyBytes with
    | none => .error .badParameter
    | some _ =>
      match parseCAPool i.tlsCACertsBytes with
      | none => .error .wrapped
      | some pool =>
        .ok { cert := i.tlsCertBytes, key := i.keyBytes, pool := pool,
              serverName := encodeClusterName i.clusterName }

/-- utils.DefaultCipherSuites stand-in (the value is irrelevant to the
behaviour; ReadTLSIdentityFromKeyPair notes the suites do not matter
for the discarded validation config). -/
def defaultCipherSuites : List Nat := []

/-- ReadSSHIdentityFromKeyPair (init.go lines 732-804), in program
order: empty-buffer checks, authorized-key parse requiring a
certificate, private-key parse, certificate-bound signer construction,
principal checks, extension checks, role parsing with the
exactly-one-role check, authority extension check. -/
def ReadSSHIdentityFromKeyPair (keyBytes certBytes : SSHBytes) :
    Except TraceErr Identity :=
  if keyBytes = .empty then .error .badParameter
  else if certBytes = .empty then .error .badParameter
  else
    match parseAuthorizedKey certBytes with
    | none => .error .badParameter
    | some (.bare _) => .error .badParameter
    | some (.certificate c) =>
      match parsePrivateKey keyBytes with
      | none => .error .badParameter
      | some k =>
        if c.certKey ≠ k then .error .badParameter
        else if c.validPrincipals.length < 1 then .error .badParameter
        else if c.validPrincipals.any (· == "") then .error .badParameter
        else if c.extensions.isEmpty then .error .badParameter
        else if extLookup c.extensions certExtensionRole = "" then .error .badParameter
        else
          match parseRoles (extLookup c.extensions certExtensionRole) with
          | .error e => .error e
          | .ok roles =>
            if roles.length ≠ 1 then .error .generic
            else if extLookup c.extensions certExtensionAuthority = "" then
              .error .badParameter
            else
              .ok { id := { role := roles.headI, hostUUID := c.validPrincipals.headI,
                            nodeName := "" },
                    keyBytes := keyBytes, certBytes := certBytes,
                    tlsCertBytes := .empty, tlsCACertsBytes := [],
                    keySigner := some (.certSigner c k), cert := some c,
                    clusterName := extLookup c.extensions certExtensionAuthority }

/-- ReadTLSIdentityFromKeyPair (init.go lines 688-730): empty-buffer
checks, certificate parse, subject decode, issuer-organization checks,
then a full TLS trust-config construction as parse-time validation
(the config is discarded). -/
def ReadTLSIdentityFromKeyPair (keyBytes : SSHBytes) (certBytes : TLSBytes)
    (caCertsBytes : List TLSBytes) : Except TraceErr Identity :=
  if keyBytes = .empty then .error .badParameter
  else if certBytes = TLSBytes.empty then .error .badParameter
  else
    match parseCertificatePEM certBytes with
    | none => .error .wrapped
    | some c =>
      match c.subject with
      | none => .error .wrapped
      | some subj =>
        if c.issuerOrg.isEmpty then .error .badParameter
        else if c.issuerOrg.headI = "" then .error .badParameter
        else
          let identity : Identity :=
            { id := { role := subj.group0, hostUUID := subj.username, nodeName := "" },
              keyBytes := keyBytes, certBytes := .empty,
              tlsCertBytes := certBytes, tlsCACertsBytes := caCertsBytes,
              keySigner := none, cert := none,
              clusterName := c.issuerOrg.headI }
          match identity.TLSConfig defaultCipherSuites with
          | .error e => .error e
          | .ok _ => .ok identity

/-- ReadIdentityFromKeyPair (init.go lines 670-686): read the SSH
identity; when TLS certificate bytes are present, validate them
independently via ReadTLSIdentityFromKeyPair and attach the TLS
certificate and trust-root bytes to the identity. -/
def ReadIdentityFromKeyPair (keyBytes sshCertBytes : SSHBytes)
    (tlsCertBytes : TLSBytes) (tlsCACertsBytes : List TLSBytes) :
    Except TraceErr Identity :=
  match ReadSSHIdentityFromKeyPair keyBytes sshCertBytes with
  | .error e => .error e
  | .ok identity =>
    if tlsCertBytes ≠ TLSBytes.empty then
      match ReadTLSIdentityFromKeyPair keyBytes tlsCertBytes tlsCACertsBytes with
      | .error e => .error e
      | .ok _ =>
        .ok { identity with tlsCertBytes := tlsCertBytes,
                            tlsCACertsBytes := tlsCACertsBytes }
    else .ok identity

/-! OIDC claims (oidc.go).  jose.Claims is an unordered map from claim
name to a JSON value; it is modelled as an association list with
first-occurrence lookup.  Claim values are restricted to the shapes the
code inspects: strings, lists of strings, the nested acr object used by
the NetIQ rule (a map holding a "values" list whose elements may or may
not be strings), and an opaque other shape. -/

/-- A claim value. -/
inductive ClaimValue where
  | str (s : String)
  | strList (l : List String)
  | acrValues (vals : List (Option String))
  | otherVal
deriving DecidableEq, Repr

/-- jose.Claims. -/
abbrev Claims := List (String × ClaimValue)

/-- Map lookup on a claim set. -/
def lookupClaim (c : Claims) (k : String) : Option ClaimValue :=
  (c.find? (fun p => p.1 == k)).map (fun p => p.2)

/-- Result triple of jose.Claims.StringClaim: the value ("" when not a
string), whether the claim exists as a string, and whether a
present-but-not-a-string type error was reported. -/
structure StringClaimResult where
  val : String
  present : Bool
  typeErr : Bool
deriving DecidableEq, Repr

/-- jose.Claims.StringClaim: absent claims report (.. , false, false);
present non-string claims report ("", false, true); string claims
report (s, true, false). -/
def stringClaim (c : Claims) (k : String) : StringClaimResult :=
  match lookupClaim c k with
  | none => ⟨"", false, false⟩
  | some (.str s) => ⟨s, true, false⟩
  | some _ => ⟨"", false, true⟩

/-- mergeClaims (oidc.go lines 618-628): merge b into a; keys already
present in a are kept, keys only in b are added. -/
def mergeClaims (a b : Claims) : Claims :=
  a ++ b.filter (fun p => (lookupClaim a p.1).isNone)

/-- Modelled from the spec: the MaxPages page cap constant of the
ClaimsAggregator is declared outside src; the spec fixes only that the
cap is "a fixed maximum". -/
def MaxPages : Nat := 100

/-- Outcome of one gsuiteClient.fetchGroupsPage call: a decoded page, a
non-2xx HTTP status, or an undecodable body. -/
inductive PageResult where
  | okPage (nextPageToken : String) (groups : List String)
  | httpError
  | decodeError
deriving DecidableEq, Repr

/-- gsuiteClient.fetchGroups collect loop (oidc.go lines 529-559).  The
Go loop counts fetched pages in `count` starting at 0 and breaks when
`count > MaxPages`; here the loop is driven by the remaining budget
`MaxPages + 1 - count` so that the recursion is structural.  The page
API is an oracle from continuation token to page outcome; the result
carries the collected groups, the number of pages fetched and the
number of truncation audit events emitted. -/
def fetchLoop (api : String → PageResult) :
    Nat → List String → String → Nat → Except TraceErr (List String × Nat × Nat)
  | 0, groups, _, fetches => .ok (groups, fetches, 1)
  | n + 1, groups, token, fetches =>
    match api token with
    | .httpError => .error .accessDenied
    | .decodeError => .error .badParameter
    | .okPage next pageGroups =>
      if next = "" then .ok (groups ++ pageGroups, fetches + 1, 0)
      else fetchLoop api n (groups ++ pageGroups) next (fetches + 1)

/-- Result of fetchGroups: the returned claim set, the number of pages
fetched, and the number of truncation audit events emitted. -/
structure FetchGroupsResult where
  claims : Claims
  fetches : Nat
  audits : Nat
deriving DecidableEq, Repr

/-- gsuiteClient.fetchGroups (oidc.go lines 529-559): run the collect
loop from an empty token and wrap the collected groups as the claim
set containing exactly a "groups" list. -/
def fetchGroups (api : String → PageResult) : Except TraceErr FetchGroupsResult :=
  match fetchLoop api (MaxPages + 1) [] "" 0 with
  | .error e => .error e
  | .ok (groups, fetches, audits) =>
    .ok ⟨[("groups", .strList groups)], fetches, audits⟩

/-- teleport.GSuiteIssuerURL (constant outside src). -/
def gsuiteIssuerURL : String := "https://accounts.google.com"

/-- teleport.GSuiteGroupsScope (constant outside src). -/
def gsuiteGroupsScope : String :=
  "https://www.googleapis.com/auth/admin.directory.group.readonly"

/-- External collaborator outcomes consumed by getClaims, one
authentication attempt at a time: the OAuth client construction, the
code-for-token exchange, the signature-verified ID-token claims, the
UserInfo endpoint claims (NotFound when the provider offers no
UserInfo endpoint), and the GSuite group-membership page API. -/
structure ClaimsEnv where
  oauthClient : Except TraceErr Unit
  tokenExchange : Except TraceErr Unit
  idTokenClaims : Except TraceErr Claims
  userInfoClaims : Except TraceErr Claims
  gsuiteApi : String → PageResult

/-- getClaims (oidc.go lines 630-712).  The result is an optional
claim set paired in Except form: `.ok none` models the Go return of a
nil claim map with a nil error, which happens when a `sub` claim is
absent (with no type error) because `trace.Wrap(nil)` is nil. -/
def getClaims (env : ClaimsEnv) (issuerURL : String) (scope : List String) :
    Except TraceErr (Option Claims) :=
  match env.oauthClient with
  | .error e => .error e
  | .ok _ =>
  match env.tokenExchange with
  | .error e => .error e
  | .ok _ =>
  match env.idTokenClaims with
  | .error e => .error e
  | .ok idTokenClaims =>
  match env.userInfoClaims with
  | .error e =>
    if e = .notFound then .ok (some idTokenClaims) else .error e
  | .ok userInfoClaims =>
    let idsub := stringClaim idTokenClaims "sub"
    if idsub.typeErr then .error .wrapped
    else if !idsub.present then .ok none
    else
      let uisub := stringClaim userInfoClaims "sub"
      if uisub.typeErr then .error .wrapped
      else if !uisub.present then .ok none
      else if idsub.val ≠ uisub.val then .error .badParameter
      else
        let claims := mergeClaims idTokenClaims userInfoClaims
        if issuerURL = gsuiteIssuerURL && scope.contains gsuiteGroupsScope then
          if (stringClaim claims "email").typeErr then .error .wrapped
          else
            match fetchGroups env.gsuiteApi with
            | .error e => if e ≠ .notFound then .error e else .ok (some claims)
            | .ok r => .ok (some (mergeClaims claims r.claims))
        else .ok (some claims)

/-! OIDC callback validation and dynamic user provisioning
(oidc.go lines 126-403).  Time is modelled as seconds (Int); a
duration is the difference of two times. -/

/-- One claim-to-role mapping of a connector
(services.ClaimMapping). -/
structure ClaimMapping where
  claim : String
  value : String
  roles : List String
deriving DecidableEq, Repr

/-- The connector fields consulted by the callback path
(services.OIDCConnector). -/
structure OIDCConnectorModel where
  name : String
  issuerURL : String
  scope : List String
  acr : String
  provider : String
  claimsToRoles : List ClaimMapping
deriving DecidableEq, Repr

/-- The pending authentication request looked up by state token
(services.OIDCAuthRequest). -/
structure OIDCAuthRequest where
  connectorID : String
  stateToken : String
  checkUser : Bool
  createWebSession : Bool
  publicKey : List Nat
  certTTL : Int
deriving DecidableEq, Repr

/-- oidc.Identity extracted from claims: the federated email and the
identity expiry instant. -/
structure OIDCIdent where
  email : String
  expiresAt : Int
deriving DecidableEq, Repr

/-- services.ConnectorRef stored in a user's CreatedBy record. -/
structure ConnectorRef where
  connectorType : String
  id : String
  identity : String
deriving DecidableEq, Repr

/-- services.ExternalIdentity. -/
structure ExternalIdentity where
  connectorID : String
  username : String
deriving DecidableEq, Repr

/-- The user record fields consulted and written by the callback path
(services.UserV2). -/
structure UserV2 where
  name : String
  roles : List String
  traits : List (String × List String)
  expires : Int
  identities : List ExternalIdentity
  createdByConnector : Option ConnectorRef
  createdAt : Int
deriving DecidableEq, Repr

/-- A persisted web session with its expiry and bearer-token expiry
instants. -/
structure WebSessionModel where
  token : String
  expiry : Int
  bearerExpiry : Int
deriving DecidableEq, Repr

/-- The backend state mutated by the callback path: the user store and
the web-session store, both keyed by user name. -/
structure AuthState where
  users : List (String × UserV2)
  sessions : List (String × WebSessionModel)
deriving DecidableEq, Repr

/-- User-store lookup. -/
def lookupUser (s : AuthState) (name : String) : Option UserV2 :=
  ((s.users.find? (fun p => p.1 == name))).map (fun p => p.2)

/-- User-store upsert: replace the record under the name, or insert
it. -/
def upsertUser (s : AuthState) (u : UserV2) : AuthState :=
  { s with users := (u.name, u) :: s.users.filter (fun p => !(p.1 == u.name)) }

/-- Session-store upsert. -/
def upsertSession (s : AuthState) (name : String) (sess : WebSessionModel) : AuthState :=
  { s with sessions := (name, sess) :: s.sessions.filter (fun p => !(p.1 == name)) }

/-- GetUserByOIDCIdentity: find a user holding the given external
identity. -/
def getUserByOIDCIdentity (s : AuthState) (ident : ExternalIdentity) : Option UserV2 :=
  ((s.users.find? (fun p => p.2.identities.contains ident))).map (fun p => p.2)

/-- Modelled from the spec: services.OIDCConnector.MapClaims is not
under src; each configured claim-to-role mapping contributes its roles
when the named claim is a string equal to the mapped value or a string
list containing it. -/
def mapClaims (conn : OIDCConnectorModel) (claims : Claims) : List String :=
  conn.claimsToRoles.foldl
    (fun acc m =>
      match lookupClaim claims m.claim with
      | some (.str s) => if s = m.value then acc ++ m.roles else acc
      | some (.strList l) => if l.contains m.value then acc ++ m.roles else acc
      | _ => acc)
    []

/-- claimsToTraitMap (oidc.go lines 314-331): every string claim
becomes a single-valued trait, every string-list claim a multi-valued
trait. -/
def claimsToTraitMap (claims : Claims) : List (String × List String) :=
  claims.foldr
    (fun p traits =>
      match p.2 with
      | .str s => (p.1, [s]) :: traits
      | .strList l => (p.1, l) :: traits
      | _ => traits)
    []

/-- teleport.ConnectorOIDC. -/
def connectorOIDC : String := "oidc"

/-- The user record generated by createOIDCUser (oidc.go lines
342-369): federated email as name, mapped roles, trait map, expiry
equal to the federated identity's expiry, and a CreatedBy connector
reference. -/
def provisionedUser (conn : OIDCConnectorModel) (ident : OIDCIdent) (claims : Claims)
    (now : Int) : UserV2 :=
  { name := ident.email, roles := mapClaims conn claims,
    traits := claimsToTraitMap claims, expires := ident.expiresAt,
    identities := [⟨conn.name, ident.email⟩],
    createdByConnector := some ⟨connectorOIDC, conn.name, ident.email⟩,
    createdAt := now }

/-- createOIDCUser (oidc.go lines 333-403): map claims to roles
(AccessDenied when none match), build the user record, then protect
local accounts: an existing user with no connector reference fails
with AlreadyExists, anything else is overwritten by upsert.  The
resulting state is returned alongside the outcome; error paths leave
the state unchanged. -/
def createOIDCUser (conn : OIDCConnectorModel) (ident : OIDCIdent) (claims : Claims)
    (now : Int) (s : AuthState) : Except TraceErr Unit × AuthState :=
  if (mapClaims conn claims).isEmpty then (.error .accessDenied, s)
  else
    match lookupUser s ident.email with
    | some existingUser =>
      if existingUser.createdByConnector = none then (.error .alreadyExists, s)
      else (.ok (), upsertUser s (provisionedUser conn ident claims now))
    | none => (.ok (), upsertUser s (provisionedUser conn ident claims now))

/-- teleport.NetIQ provider name (constant outside src). -/
def netIQ : String := "netiq"

/-- validateACRValues (oidc.go lines 714-771): the NetIQ rule matches
the expected value against the claims' nested acr.values list; the
default rule requires the acr string claim to equal the expected value
exactly.  All failures are BadParameter (jose reports a
present-but-not-string claim as not existing, which the default branch
checks first). -/
def validateACRValues (acrValue : String) (identityProvider : String) (claims : Claims) :
    Except TraceErr Unit :=
  if identityProvider = netIQ then
    match lookupClaim claims "acr" with
    | some (.acrValues vals) =>
      if vals.contains (some acrValue) then .ok () else .error .badParameter
    | _ => .error .badParameter
  else
    match lookupClaim claims "acr" with
    | some (.str v) => if v = acrValue then .ok () else .error .badParameter
    | _ => .error .badParameter

/-- Modelled from the spec: utils.ToTTL is not under src; the
remaining lifetime is the expiry instant minus the current time. -/
def toTTL (now expiresAt : Int) : Int := expiresAt - now

/-- Modelled from the spec: utils.MinTTL is not under src; the minimum
of two durations. -/
def minTTL (a b : Int) : Int := min a b

/-- The role-set data consulted for TTL policy. -/
structure RoleSet where
  maxSessionTTL : Int
deriving DecidableEq, Repr

/-- Modelled from the spec: services.RoleSet.AdjustSessionTTL is not
under src; the session TTL is capped by the role policy maximum. -/
def adjustSessionTTL (roles : RoleSet) (ttl : Int) : Int :=
  min ttl roles.maxSessionTTL

/-- BearerTokenTTL ceiling (constant outside src, modelled from the
spec as a fixed bearer-token ceiling). -/
def bearerTokenTTL : Int := 600

/-- An issued certificate pair, recorded with the TTL it was issued
under. -/
structure IssuedCert where
  ttl : Int
  publicKey : List Nat
deriving DecidableEq, Repr

/-- OIDCAuthResponse (oidc.go lines 284-302). -/
structure OIDCAuthResponseModel where
  username : String
  identity : ExternalIdentity
  session : Option WebSessionModel
  certIssued : Option IssuedCert
  hostSigners : List CertAuthority
  req : OIDCAuthRequest
deriving DecidableEq, Repr

/-- External collaborator outcomes consumed by validateOIDCAuthCallback
beyond the claim sources: callback query parameters, backend lookups,
the provider client, claim-to-identity conversion, role fetching,
session-token generation, certificate generation and the host CA
lookup for the response. -/
structure CallbackEnv where
  qError : String
  qCode : String
  qState : String
  clusterName : Except TraceErr String
  request : Except TraceErr OIDCAuthRequest
  connector : Except TraceErr OIDCConnectorModel
  oidcClient : Except TraceErr Unit
  claimsEnv : ClaimsEnv
  identFromClaims : Option Claims → Except TraceErr OIDCIdent
  fetchRoles : List String → List (String × List String) → Except TraceErr RoleSet
  now : Int
  newSessionToken : String
  genCert : Except TraceErr Unit
  hostCAFetch : Except TraceErr CertAuthority

/-- The part of validateOIDCAuthCallback after claim construction
(oidc.go lines 193-281): ACR validation, identity extraction, dynamic
user provisioning when the connector maps claims to roles, optional
internal-user resolution, TTL computation, optional web-session
creation and optional certificate issuance. -/
def afterClaims (env : CallbackEnv) (s : AuthState) (req : OIDCAuthRequest)
    (conn : OIDCConnectorModel) (claims : Option Claims) :
    Except TraceErr OIDCAuthResponseModel × AuthState :=
  if conn.acr ≠ "" &&
      !(validateACRValues conn.acr conn.provider (claims.getD [])).toBool then
    (.error .badParameter, s)
  else
    match env.identFromClaims claims with
    | .error _ => (.error .oauth2, s)
    | .ok ident =>
      let response0 : OIDCAuthResponseModel :=
        { username := "", identity := ⟨conn.name, ident.email⟩,
          session := none, certIssued := none, hostSigners := [], req := req }
      let provisioned :=
        if !conn.claimsToRoles.isEmpty then
          createOIDCUser conn ident (claims.getD []) env.now s
        else (.ok (), s)
      match provisioned with
      | (.error e, s1) => (.error e, s1)
      | (.ok _, s1) =>
        if !req.checkUser then (.ok response0, s1)
        else
          match getUserByOIDCIdentity s1 ⟨req.connectorID, ident.email⟩ with
          | none => (.error .notFound, s1)
          | some user =>
            let response1 := { response0 with username := user.name }
            match env.fetchRoles user.roles user.traits with
            | .error e => (.error e, s1)
            | .ok roles =>
              let sessionTTL := adjustSessionTTL roles (toTTL env.now ident.expiresAt)
              let bearerTTL := minTTL bearerTokenTTL sessionTTL
              let (response2, s2) :=
                if req.createWebSession then
                  let sess : WebSessionModel :=
                    { token := env.newSessionToken,
                      expiry := env.now + sessionTTL,
                      bearerExpiry := env.now + bearerTTL }
                  ({ response1 with session := some sess }, upsertSession s1 user.name sess)
                else (response1, s1)
              if !req.publicKey.isEmpty then
                let certTTL := minTTL (toTTL env.now ident.expiresAt) req.certTTL
                match env.genCert with
                | .error e => (.error e, s2)
                | .ok _ =>
                  match env.hostCAFetch with
                  | .error e => (.error e, s2)
                  | .ok authority =>
                    (.ok { response2 with
                            certIssued := some ⟨certTTL, req.publicKey⟩,
                            hostSigners := [authority] }, s2)
              else (.ok response2, s2)

/-- validateOIDCAuthCallback (oidc.go lines 147-282): protocol-level
query checks, state-token lookup, connector and client resolution,
claim construction (failures become an OAuth2-shaped error), then the
post-claims sequence. -/
def validateOIDCAuthCallback (env : CallbackEnv) (s : AuthState) :
    Except TraceErr OIDCAuthResponseModel × AuthState :=
  if env.qError ≠ "" then (.error .oauth2, s)
  else if env.qCode = "" then (.error .oauth2, s)
  else if env.qState = "" then (.error .oauth2, s)
  else
    match env.clusterName with
    | .error e => (.error e, s)
    | .ok _ =>
      match env.request with
      | .error e => (.error e, s)
      | .ok req =>
        match env.connector with
        | .error e => (.error e, s)
        | .ok conn =>
          match env.oidcClient with
          | .error e => (.error e, s)
          | .ok _ =>
            match getClaims env.claimsEnv conn.issuerURL conn.scope with
            | .error _ => (.error .oauth2, s)
            | .ok claims => afterClaims env s req conn claims

/-- An entry in the audit log emitted by the outer callback
handler. -/
inductive AuditEvent where
  | loginFailure
  | loginSuccess (username : String)
deriving DecidableEq, Repr

/-- ValidateOIDCAuthCallback (oidc.go lines 129-145): run the inner
validation and emit exactly one audit event recording failure or the
resolved username on success. -/
def ValidateOIDCAuthCallback (env : CallbackEnv) (s : AuthState) :
    Except TraceErr OIDCAuthResponseModel × AuthState × List AuditEvent :=
  match validateOIDCAuthCallback env s with
  | (.error e, s1) => (.error e, s1, [.loginFailure])
  | (.ok r, s1) => (.ok r, s1, [.loginSuccess r.username])

/-! Claim-side condition predicates and concrete inputs used by the
theorems below. -/

/-- The certificate held by an SSH buffer, when it parses as one. -/
def parsedCert (cb : SSHBytes) : Option SSHCertData :=
  match parseAuthorizedKey cb with
  | some (.certificate c) => some c
  | _ => none

/-- Follows the words of claim C6, not the source: the enumerated
conditions under which ReadSSHIdentityFromKeyPair is claimed to fail —
an empty buffer, certificate bytes that do not parse as an SSH
certificate, zero valid principals or an empty principal, absent
role/authority extensions, or a role extension encoding a number of
roles different from exactly one. -/
def sshReadClaimedErrorCond (kb cb : SSHBytes) : Bool :=
  kb == .empty || cb == .empty ||
  (parsedCert cb).isNone ||
  (match parsedCert cb with
   | some c =>
     decide (c.validPrincipals.length = 0) || c.validPrincipals.any (· == "") ||
     c.extensions.isEmpty || (extLookup c.extensions certExtensionRole == "") ||
     (extLookup c.extensions certExtensionAuthority == "") ||
     (match parseRoles (extLookup c.extensions certExtensionRole) with
      | .ok roles => decide (roles.length ≠ 1)
      | .error _ => false)
   | none => false)

/-- The amended failure condition for ReadSSHIdentityFromKeyPair: the
conditions of claim C6 extended with the ones the code also rejects —
key bytes that do not parse as a private key, a certificate whose
certified key does not match the private key (certificate-bound signer
construction fails), and a role extension that does not parse. -/
def sshReadAmendedErrorCond (kb cb : SSHBytes) : Bool :=
  kb == .empty || cb == .empty ||
  (parsedCert cb).isNone ||
  (parsePrivateKey kb).isNone ||
  (match parsedCert cb, parsePrivateKey kb with
   | some c, some k =>
     (c.certKey != k) || decide (c.validPrincipals.length < 1) ||
     c.validPrincipals.any (· == "") ||
     c.extensions.isEmpty || (extLookup c.extensions certExtensionRole == "") ||
     (match parseRoles (extLookup c.extensions certExtensionRole) with
      | .error _ => true
      | .ok roles => decide (roles.length ≠ 1)) ||
     (extLookup c.extensions certExtensionAuthority == "")
   | _, _ => false)

/-- Concrete key-generation oracle for the bootstrap theorems: fresh
key material 100, 101, ...; certificates are 2000 plus the key; parsing
a stored signing key returns its material; every key is RSA. -/
def egKeyGen : CAKeyGen :=
  { fresh := fun n => 100 + n, pubOf := fun k => k + 1, certOf := fun k => 2000 + k,
    uuidOf := fun n => 3000 + n, parseRaw := fun k => some k, isRSA := fun _ => true }

/-- A backend holding both authorities with SSH material but no TLS
material (the pre-dual-protocol data format). -/
def egStateNoTLS : BackendState :=
  { userCA := some ⟨[5], [6], []⟩, hostCA := some ⟨[7], [8], []⟩,
    clusterID := some 1, clusterName := some "c" }

/-- An empty backend (true first start). -/
def egStateEmpty : BackendState :=
  { userCA := none, hostCA := none, clusterID := none, clusterName := none }

/-- A well-formed SSH certificate: one principal, role and authority
extensions, certified key material 1. -/
def egGoodCertData : SSHCertData :=
  ⟨["p"], [(certExtensionRole, "Admin"), (certExtensionAuthority, "c")], 1⟩

/-- The buffer holding egGoodCertData. -/
def egGoodCert : SSHBytes := .certBytes egGoodCertData

/-- The identity produced by reading (privKey 1, egGoodCert). -/
def egIdentC6 : Identity :=
  { id := { role := "Admin", hostUUID := "p", nodeName := "" },
    keyBytes := .privKey 1, certBytes := egGoodCert,
    tlsCertBytes := .empty, tlsCACertsBytes := [],
    keySigner := some (.certSigner egGoodCertData 1), cert := some egGoodCertData,
    clusterName := "c" }

/-- The backend of egStateNoTLS after bootstrap: the user CA got a
fresh TLS key (100), the host CA reused its parsed signing key (7). -/
def egStateNoTLSAfter : BackendState :=
  { userCA := some ⟨[5], [6], [⟨2100, 100⟩]⟩, hostCA := some ⟨[7], [8], [⟨2007, 7⟩]⟩,
    clusterID := some 1, clusterName := some "c" }

/-- The backend produced by bootstrapping the empty backend with
egKeyGen. -/
def egStateBoot : BackendState :=
  { userCA := some ⟨[101], [102], [⟨2102, 102⟩]⟩,
    hostCA := some ⟨[103], [104], [⟨2104, 104⟩]⟩,
    clusterID := some 3000, clusterName := some "c" }

/-- A well-formed x509 certificate buffer: decodable subject, issuer
organization naming the cluster, certified key material 1. -/
def egTLSCert : TLSBytes := .certBytes ⟨some ⟨"host1", "Admin", []⟩, ["c"], 1⟩

/-- A connector that maps no claims to roles and requires no ACR. -/
def egConnector : OIDCConnectorModel :=
  { name := "oidcService", issuerURL := "https://id.example.com", scope := ["email"],
    acr := "", provider := "", claimsToRoles := [] }

/-- A pending request asking for user resolution, a web session and a
certificate with a requested TTL of one hour. -/
def egRequest : OIDCAuthRequest :=
  { connectorID := "oidcService", stateToken := "st", checkUser := true,
    createWebSession := true, publicKey := [9], certTTL := 3600 }

/-- A user bound to the example external identity, created by the
connector. -/
def egUser : UserV2 :=
  { name := "foo@example.com", roles := ["admin"], traits := [], expires := 60,
    identities := [⟨"oidcService", "foo@example.com"⟩],
    createdByConnector := some ⟨connectorOIDC, "oidcService", "foo@example.com"⟩,
    createdAt := 0 }

/-- A user store holding the example federated user. -/
def egAuthState : AuthState := { users := [("foo@example.com", egUser)], sessions := [] }

/-- A consistent claim set with subject S. -/
def egClaims : Claims := [("sub", .str "S"), ("email", .str "foo@example.com")]

/-- Claim sources whose ID token and UserInfo agree on the subject. -/
def egClaimsEnvOK : ClaimsEnv :=
  { oauthClient := .ok (), tokenExchange := .ok (), idTokenClaims := .ok egClaims,
    userInfoClaims := .ok egClaims, gsuiteApi := fun _ => .httpError }

/-- Claim sources whose ID token and UserInfo disagree on the
subject. -/
def egClaimsEnvMismatch : ClaimsEnv :=
  { egClaimsEnvOK with idTokenClaims := .ok [("sub", .str "A")],
                       userInfoClaims := .ok [("sub", .str "B")] }

/-- Claim sources whose ID token carries no sub claim at all. -/
def egClaimsEnvNoSub : ClaimsEnv :=
  { egClaimsEnvOK with idTokenClaims := .ok [("email", .str "x")] }

/-- A callback environment in which every external step succeeds; an
identity expiring in one minute (at instant 60 with now = 0). -/
def egCallbackEnv : CallbackEnv :=
  { qError := "", qCode := "authcode", qState := "st", clusterName := .ok "c",
    request := .ok egRequest, connector := .ok egConnector, oidcClient := .ok (),
    claimsEnv := egClaimsEnvOK,
    identFromClaims := fun _ => .ok ⟨"foo@example.com", 60⟩,
    fetchRoles := fun _ _ => .ok ⟨18000⟩,
    now := 0, newSessionToken := "tok", genCert := .ok (),
    hostCAFetch := .ok ⟨[1], [2], [⟨3, 4⟩]⟩ }

/-- The happy-path environment with mismatching claim subjects. -/
def egCallbackEnvMismatch : CallbackEnv :=
  { egCallbackEnv with claimsEnv := egClaimsEnvMismatch }

/-- The happy-path environment with the sub claim missing from the ID
token. -/
def egCallbackEnvNoSub : CallbackEnv :=
  { egCallbackEnv with claimsEnv := egClaimsEnvNoSub }

/-- A connector mapping the example email claim to the admin role. -/
def egConnectorMapped : OIDCConnectorModel :=
  { egConnector with claimsToRoles := [⟨"email", "foo@example.com", ["admin"]⟩] }

/-- A local user with the example name: no connector reference. -/
def egLocalUser : UserV2 := { egUser with createdByConnector := none }

/-- A user store holding the local user. -/
def egStateLocal : AuthState := { users := [("foo@example.com", egLocalUser)], sessions := [] }

/-- The federated identity used in the provisioning examples. -/
def egIdent : OIDCIdent := ⟨"foo@example.com", 60⟩

/-- A page API that advertises a next page forever. -/
def egApiAlways : String → PageResult := fun _ => .okPage "t" ["g"]

/-! Theorems settling the claims. -/

/-- Filtering with a predicate that holds wherever the search
predicate does cannot change the result of find?. -/
theorem find_filter_of_imp {α : Type} (p q : α → Bool) (l : List α)
    (h : ∀ x, p x = true → q x = true) : (l.filter q).find? p = l.find? p := by
  induction l with
  | nil => rfl
  | cons x t ih =>
    by_cases hp : p x = true
    · rw [List.filter_cons, h x hp, if_pos rfl, List.find?_cons_of_pos _ hp,
        List.find?_cons_of_pos _ hp]
    · rw [List.filter_cons, List.find?_cons_of_neg _ hp]
      by_cases hq : q x = true
      · rw [if_pos hq, List.find?_cons_of_neg _ hp, ih]
      · rw [if_neg hq, ih]

/-- C8.  Claim merging is left-biased: looking up any key in
mergeClaims a b yields a's value whenever a binds the key, and b's
value exactly when only b binds it; hence ID-token claims win over
UserInfo claims, and group claims merged afterwards add new keys
only. -/
theorem mergeClaims_left_biased (a b : Claims) (k : String) :
    lookupClaim (mergeClaims a b) k = ((lookupClaim a k).or (lookupClaim b k)) := by
  unfold lookupClaim mergeClaims
  rw [List.find?_append]
  cases hf : a.find? (fun p => p.1 == k) with
  | some v => simp
  | none =>
    rw [find_filter_of_imp]
    · simp
    · intro x hx
      have hxk : x.1 = k := by simpa using hx
      simp [lookupClaim, hxk, hf]

/-- The collect loop fetches at most as many pages as its remaining
budget. -/
theorem fetchLoop_fetches_le (api : String → PageResult) :
    ∀ (n : Nat) (groups : List String) (token : String) (fetches : Nat)
      (r : List String × Nat × Nat),
      fetchLoop api n groups token fetches = .ok r → r.2.1 ≤ fetches + n := by
  intro n
  induction n with
  | zero =>
    intro groups token fetches r h
    simp only [fetchLoop, Except.ok.injEq] at h
    subst h
    simp
  | succ n ih =>
    intro groups token fetches r h
    simp only [fetchLoop] at h
    split at h
    · simp at h
    · simp at h
    · split at h
      · simp only [Except.ok.injEq] at h
        subst h
        show fetches + 1 ≤ fetches + (n + 1)
        omega
      · have := ih _ _ _ _ h
        omega

/-- Against an API that always advertises a next page, the collect
loop spends its whole budget, emits one truncation event, and still
returns successfully. -/
theorem fetchLoop_always_next (api : String → PageResult)
    (h : ∀ t, ∃ next pg, api t = .okPage next pg ∧ next ≠ "") :
    ∀ (n : Nat) (groups : List String) (token : String) (fetches : Nat),
      ∃ gs, fetchLoop api n groups token fetches = .ok (gs, fetches + n, 1) := by
  intro n
  induction n with
  | zero =>
    intro groups token fetches
    exact ⟨groups, by simp [fetchLoop]⟩
  | succ n ih =>
    intro groups token fetches
    obtain ⟨next, pg, hapi, hne⟩ := h token
    obtain ⟨gs, hgs⟩ := ih (groups ++ pg) next (fetches + 1)
    refine ⟨gs, ?_⟩
    simp only [fetchLoop, hapi]
    rw [if_neg hne, hgs]
    have : fetches + 1 + n = fetches + (n + 1) := by omega
    rw [this]

/-- C9 counterexample.  The claim caps the number of fetches at
MaxPages, but an API that returns a NextPageToken forever is fetched
MaxPages + 1 times before the loop breaks (the Go guard is
`count > MaxPages` with count starting at zero): the call still
succeeds with the truncated groups claim and one audit event, but the
fetch count exceeds the claimed cap. -/
theorem fetchGroups_cap_counterexample :
    fetchGroups egApiAlways =
      .ok ⟨[("groups", .strList (List.replicate (MaxPages + 1) "g"))], MaxPages + 1, 1⟩ ∧
    ¬ (MaxPages + 1 ≤ MaxPages) := by
  constructor
  · rfl
  · decide

/-- C9 amended.  fetchGroups terminates after at most MaxPages + 1
fetches; an API advertising a next page forever is fetched exactly
MaxPages + 1 times and yields a successful claim set of shape
groups-list together with exactly one truncation audit event; any page
answered with a non-2xx status or an undecodable body fails the whole
call (AccessDenied, resp. BadParameter). -/
theorem fetchGroups_cap_amended :
    (∀ api r, fetchGroups api = .ok r → r.fetches ≤ MaxPages + 1) ∧
    (∀ api, (∀ t, ∃ next pg, api t = .okPage next pg ∧ next ≠ "") →
      ∃ gs, fetchGroups api = .ok ⟨[("groups", .strList gs)], MaxPages + 1, 1⟩) ∧
    (∀ api n groups token fetches, api token = .httpError →
      fetchLoop api (n + 1) groups token fetches = .error .accessDenied) ∧
    (∀ api n groups token fetches, api token = .decodeError →
      fetchLoop api (n + 1) groups token fetches = .error .badParameter) := by
  refine ⟨?_, ?_, ?_, ?_⟩
  · intro api r h
    unfold fetchGroups at h
    cases hl : fetchLoop api (MaxPages + 1) [] "" 0 with
    | error e => rw [hl] at h; simp at h
    | ok v =>
      rw [hl] at h
      obtain ⟨gs, f, a⟩ := v
      simp only [Except.ok.injEq] at h
      subst h
      have := fetchLoop_fetches_le api (MaxPages + 1) [] "" 0 (gs, f, a) hl
      simpa using this
  · intro api h
    obtain ⟨gs, hgs⟩ := fetchLoop_always_next api h (MaxPages + 1) [] "" 0
    refine ⟨gs, ?_⟩
    unfold fetchGroups
    rw [hgs]
    simp
  · intro api n groups token fetches hapi
    simp [fetchLoop, hapi]
  · intro api n groups token fetches hapi
    simp [fetchLoop, hapi]

/-- C9 witness: the amended theorem applied to the always-paginating
API. -/
theorem fetchGroups_cap_amended_witness :
    ∃ gs, fetchGroups egApiAlways = .ok ⟨[("groups", .strList gs)], MaxPages + 1, 1⟩ :=
  fetchGroups_cap_amended.2.1 egApiAlways (fun _ => ⟨"t", ["g"], rfl, by decide⟩)

/-- Inversion on a successful ReadSSHIdentityFromKeyPair: the
certificate and private key parsed, the signer is certificate-bound,
and no TLS material is attached. -/
theorem readSSH_ok_inv (kb cb : SSHBytes) (i : Identity)
    (h : ReadSSHIdentityFromKeyPair kb cb = .ok i) :
    ∃ c k, parseAuthorizedKey cb = some (.certificate c) ∧
      parsePrivateKey kb = some k ∧
      i.keySigner = some (.certSigner c k) ∧
      i.tlsCertBytes = TLSBytes.empty ∧ i.tlsCACertsBytes = [] := by
  unfold ReadSSHIdentityFromKeyPair at h
  split at h
  · exact absurd h (by simp)
  split at h
  · exact absurd h (by simp)
  split at h
  · exact absurd h (by simp)
  · exact absurd h (by simp)
  rename_i c hcb
  split at h
  · exact absurd h (by simp)
  rename_i k hkb
  split at h
  · exact absurd h (by simp)
  split at h
  · exact absurd h (by simp)
  split at h
  · exact absurd h (by simp)
  split at h
  · exact absurd h (by simp)
  split at h
  · exact absurd h (by simp)
  split at h
  · exact absurd h (by simp)
  split at h
  · exact absurd h (by simp)
  split at h
  · exact absurd h (by simp)
  simp only [Except.ok.injEq] at h
  exact ⟨c, k, hcb, hkb, by rw [← h], by rw [← h], by rw [← h]⟩

/-- C6 counterexample.  At key bytes that are non-empty but do not
parse as a private key, together with a perfectly well-formed
certificate, none of the claim's enumerated failure conditions holds,
yet ReadSSHIdentityFromKeyPair fails — the claim's "exactly when" is
too narrow. -/
theorem ssh_read_counterexample :
    sshReadClaimedErrorCond SSHBytes.junk egGoodCert = false ∧
    (ReadSSHIdentityFromKeyPair SSHBytes.junk egGoodCert).isOk = false := by
  decide

/-- C6 amended.  ReadSSHIdentityFromKeyPair fails exactly when one of
the claim's conditions holds or the private key bytes do not parse as
a private key, or the certificate-bound signer cannot be constructed
(certified key does not match the private key), or the role extension
does not parse; on success the identity's signer is certificate-bound,
not a bare key signer. -/
theorem ssh_read_amended (kb cb : SSHBytes) :
    ((ReadSSHIdentityFromKeyPair kb cb).isOk = !(sshReadAmendedErrorCond kb cb)) ∧
    (∀ i, ReadSSHIdentityFromKeyPair kb cb = .ok i →
      ∃ c k, parseAuthorizedKey cb = some (.certificate c) ∧
        parsePrivateKey kb = some k ∧ i.keySigner = some (.certSigner c k)) := by
  constructor
  · cases kb <;> cases cb <;> try rfl
    rename_i k c
    simp only [ReadSSHIdentityFromKeyPair, sshReadAmendedErrorCond, parsedCert,
      parseAuthorizedKey, parsePrivateKey]
    by_cases h1 : c.certKey = k
    · by_cases h2 : c.validPrincipals.length < 1
      · simp [Except.isOk, Except.toBool, h1, h2]
      · by_cases h3 : c.validPrincipals.any (· == "") = true
        · simp [Except.isOk, Except.toBool, h1, h2, h3]
        · by_cases h4 : c.extensions.isEmpty = true
          · simp [Except.isOk, Except.toBool, h1, h2, h3, h4]
          · by_cases h5 : extLookup c.extensions certExtensionRole = ""
            · simp [Except.isOk, Except.toBool, h1, h2, h3, h4, h5]
            · rcases hr : parseRoles (extLookup c.extensions certExtensionRole) with e | roles
              · simp [Except.isOk, Except.toBool, h1, h2, h3, h4, h5, hr]
              · by_cases h6 : roles.length = 1
                · by_cases h7 : extLookup c.extensions certExtensionAuthority = ""
                  · simp [Except.isOk, Except.toBool, h1, h2, h3, h4, h5, hr, h6, h7]
                  · simp [Except.isOk, Except.toBool, h1, h2, h3, h4, h5, hr, h6, h7]
                · simp [Except.isOk, Except.toBool, h1, h2, h3, h4, h5, hr, h6]
    · simp [Except.isOk, Except.toBool, h1]
  · intro i h
    obtain ⟨c, k, hcb, hkb, hsig, _, _⟩ := readSSH_ok_inv kb cb i h
    exact ⟨c, k, hcb, hkb, hsig⟩

/-- C6 witness: the amended theorem instantiated at a concrete valid
key/certificate pair. -/
theorem ssh_read_amended_witness :
    ∃ c k, parseAuthorizedKey egGoodCert = some (.certificate c) ∧
      parsePrivateKey (SSHBytes.privKey 1) = some k ∧
      egIdentC6.keySigner = some (.certSigner c k) :=
  (ssh_read_amended (SSHBytes.privKey 1) egGoodCert).2 egIdentC6 (by decide)

/-- C7.  ReadIdentityFromKeyPair with empty TLS certificate bytes
behaves exactly as ReadSSHIdentityFromKeyPair (TLS absence is not an
error), the resulting identity carries no TLS bytes and its TLSConfig
fails with NotFound; with non-empty TLS certificate bytes, given that
the SSH identity parses, the call fails exactly when
ReadTLSIdentityFromKeyPair fails on the same buffers, and on success
the identity carries the TLS certificate and trust-root bytes. -/
theorem read_identity_optional_tls (kb scb : SSHBytes) (ca : List TLSBytes)
    (cs : List Nat) :
    (ReadIdentityFromKeyPair kb scb TLSBytes.empty ca = ReadSSHIdentityFromKeyPair kb scb) ∧
    (∀ i, ReadSSHIdentityFromKeyPair kb scb = .ok i →
      i.tlsCertBytes = TLSBytes.empty ∧ i.tlsCACertsBytes = [] ∧
      i.TLSConfig cs = .error .notFound) ∧
    (∀ tcb, tcb ≠ TLSBytes.empty → ∀ i, ReadSSHIdentityFromKeyPair kb scb = .ok i →
      ((∃ e, ReadIdentityFromKeyPair kb scb tcb ca = .error e) ↔
        (∃ e, ReadTLSIdentityFromKeyPair kb tcb ca = .error e)) ∧
      (∀ j, ReadIdentityFromKeyPair kb scb tcb ca = .ok j →
        j.tlsCertBytes = tcb ∧ j.tlsCACertsBytes = ca)) := by
  refine ⟨?_, ?_, ?_⟩
  · unfold ReadIdentityFromKeyPair
    cases hssh : ReadSSHIdentityFromKeyPair kb scb with
    | error e => rfl
    | ok i => simp
  · intro i h
    obtain ⟨_, _, _, _, _, htls, hca⟩ := readSSH_ok_inv kb scb i h
    refine ⟨htls, hca, ?_⟩
    simp [Identity.TLSConfig, Identity.HasTLSConfig, htls, hca]
  · intro tcb htcb i h
    simp only [ReadIdentityFromKeyPair, h]
    rw [if_pos htcb]
    cases htls : ReadTLSIdentityFromKeyPair kb tcb ca with
    | error e =>
      refine ⟨?_, ?_⟩
      · simp
      · intro j hj
        simp at hj
    | ok j0 =>
      refine ⟨?_, ?_⟩
      · simp
      · intro j hj
        simp only [Except.ok.injEq] at hj
        rw [← hj]
        exact ⟨rfl, rfl⟩

/-- C7 witness: reading a concrete identity with empty TLS bytes, and
the TLS-attachment conclusion at a concrete non-empty TLS buffer. -/
theorem read_identity_optional_tls_witness :
    egIdentC6.tlsCertBytes = TLSBytes.empty ∧ egIdentC6.tlsCACertsBytes = [] ∧
    egIdentC6.TLSConfig defaultCipherSuites = .error .notFound :=
  (read_identity_optional_tls (SSHBytes.privKey 1) egGoodCert [egTLSCert]
    defaultCipherSuites).2.1 egIdentC6 (by decide)

/-- Field accounting for the cluster-ID step: it establishes a cluster
ID and touches nothing else. -/
theorem stepClusterID_fields (g : CAKeyGen) (i : Nat) (s : BackendState) :
    (stepClusterID g i s).1.clusterID.isSome = true ∧
    (stepClusterID g i s).1.userCA = s.userCA ∧
    (stepClusterID g i s).1.hostCA = s.hostCA ∧
    (stepClusterID g i s).1.clusterName = s.clusterName := by
  cases h : s.clusterID <;> simp [stepClusterID, h]

/-- The cluster-ID step is a no-op when an ID is already stored. -/
theorem stepClusterID_of_some (g : CAKeyGen) (i : Nat) (s : BackendState) (cid : Nat)
    (h : s.clusterID = some cid) : stepClusterID g i s = (s, i) := by
  simp [stepClusterID, h]

/-- Field accounting for the cluster-name step: it establishes a
cluster name and touches nothing else. -/
theorem stepClusterName_fields (cfg : String) (s : BackendState) :
    (stepClusterName cfg s).clusterName.isSome = true ∧
    (stepClusterName cfg s).userCA = s.userCA ∧
    (stepClusterName cfg s).hostCA = s.hostCA ∧
    (stepClusterName cfg s).clusterID = s.clusterID := by
  cases h : s.clusterName <;> simp [stepClusterName, h]

/-- Field accounting for the user CA step: it leaves a user CA with
TLS material and touches nothing else. -/
theorem stepUserCA_fields (g : CAKeyGen) (i : Nat) (s : BackendState) :
    (∃ ca, (stepUserCA g i s).1.userCA = some ca ∧ ca.tlsKeyPairs ≠ []) ∧
    (stepUserCA g i s).1.hostCA = s.hostCA ∧
    (stepUserCA g i s).1.clusterID = s.clusterID ∧
    (stepUserCA g i s).1.clusterName = s.clusterName := by
  cases h : s.userCA with
  | none => simp [stepUserCA, h]
  | some ca =>
    by_cases ht : ca.tlsKeyPairs = [] <;> simp [stepUserCA, h, ht]

/-- Field accounting for a successful host CA step: it leaves a host
CA with TLS material and touches nothing else. -/
theorem stepHostCA_ok_fields (g : CAKeyGen) (i : Nat) (s s1 : BackendState) (i1 : Nat)
    (h : stepHostCA g i s = .ok (s1, i1)) :
    (∃ ca, s1.hostCA = some ca ∧ ca.tlsKeyPairs ≠ []) ∧
    s1.userCA = s.userCA ∧
    s1.clusterID = s.clusterID ∧
    s1.clusterName = s.clusterName := by
  cases hca : s.hostCA with
  | none =>
    simp only [stepHostCA, hca, Except.ok.injEq, Prod.mk.injEq] at h
    obtain ⟨hs, _⟩ := h
    rw [← hs]
    simp
  | some ca =>
    by_cases ht : ca.tlsKeyPairs = []
    · rcases hsig : ca.signingKeys with _ | ⟨k, rest⟩
      · simp [stepHostCA, hca, ht, hsig] at h
      · cases hm : g.parseRaw k with
        | none => simp [stepHostCA, hca, ht, hsig, hm] at h
        | some m =>
          cases hrsa : g.isRSA m with
          | false => simp [stepHostCA, hca, ht, hsig, hm, hrsa] at h
          | true =>
            simp only [stepHostCA, hca, ht, hsig, hm, hrsa, if_true, if_pos,
              Except.ok.injEq, Prod.mk.injEq] at h
            obtain ⟨hs, _⟩ := h
            rw [← hs]
            simp
    · have heq : stepHostCA g i s = .ok (s, i) := by simp [stepHostCA, hca, ht]
      rw [heq] at h
      obtain ⟨hs, hi⟩ : s = s1 ∧ i = i1 := by simpa using h
      subst hs
      exact ⟨⟨ca, hca, ht⟩, rfl, rfl, rfl⟩

/-- A backend that already carries a cluster ID, a cluster name and
both authorities with TLS material is a fixed point of bootstrap. -/
theorem initModel_fixpoint (g : CAKeyGen) (j : Nat) (cfg : String) (s : BackendState)
    (h1 : s.clusterID.isSome = true) (h2 : s.clusterName.isSome = true)
    (h3 : ∃ ca, s.userCA = some ca ∧ ca.tlsKeyPairs ≠ [])
    (h4 : ∃ ca, s.hostCA = some ca ∧ ca.tlsKeyPairs ≠ []) :
    initModel g j cfg s = .ok (s, j) := by
  obtain ⟨cau, hu, htu⟩ := h3
  obtain ⟨cah, hh, hth⟩ := h4
  rcases hid : s.clusterID with _ | cid
  · rw [hid] at h1; simp at h1
  rcases hname : s.clusterName with _ | cn
  · rw [hname] at h2; simp at h2
  simp [initModel, stepClusterID, stepClusterName, stepUserCA, stepHostCA,
    hid, hname, hu, hh, htu, hth]

/-- After a successful bootstrap, the backend carries a cluster ID, a
cluster name, and both authorities with TLS material. -/
theorem initModel_ok_shape (g : CAKeyGen) (i : Nat) (cfg : String)
    (s s1 : BackendState) (i1 : Nat) (h : initModel g i cfg s = .ok (s1, i1)) :
    s1.clusterID.isSome = true ∧ s1.clusterName.isSome = true ∧
    (∃ ca, s1.userCA = some ca ∧ ca.tlsKeyPairs ≠ []) ∧
    (∃ ca, s1.hostCA = some ca ∧ ca.tlsKeyPairs ≠ []) := by
  simp only [initModel] at h
  obtain ⟨hshape, huser, hcid, hcn⟩ := stepHostCA_ok_fields g _ _ s1 i1 h
  refine ⟨?_, ?_, ?_, hshape⟩
  · rw [hcid, (stepUserCA_fields g _ _).2.2.1, (stepClusterName_fields cfg _).2.2.2]
    exact (stepClusterID_fields g i s).1
  · rw [hcn, (stepUserCA_fields g _ _).2.2.2]
    exact (stepClusterName_fields cfg _).1
  · rw [huser]
    exact (stepUserCA_fields g _ _).1

/-- C4.  Bootstrap is idempotent: a second run of the CA bootstrap
against the backend produced by a successful first run (same
configured cluster name, any fresh randomness) succeeds and leaves the
backend — user CA, host CA, cluster ID, cluster name — exactly
unchanged, consuming no randomness; moreover an existing cluster ID is
never overwritten by any successful run. -/
theorem bootstrap_idempotent (g : CAKeyGen) (i : Nat) (cfg : String)
    (s s1 : BackendState) (i1 : Nat) (h : initModel g i cfg s = .ok (s1, i1)) :
    (∀ g2 j, initModel g2 j cfg s1 = .ok (s1, j)) ∧
    (∀ cid, s.clusterID = some cid → s1.clusterID = some cid) := by
  constructor
  · intro g2 j
    obtain ⟨p1, p2, p3, p4⟩ := initModel_ok_shape g i cfg s s1 i1 h
    exact initModel_fixpoint g2 j cfg s1 p1 p2 p3 p4
  · intro cid hcid
    simp only [initModel] at h
    have hhost := (stepHostCA_ok_fields g _ _ s1 i1 h).2.2.1
    rw [hhost, (stepUserCA_fields g _ _).2.2.1, (stepClusterName_fields cfg _).2.2.2,
      stepClusterID_of_some g i s cid hcid]
    exact hcid

/-- C4 witness: bootstrapping the empty backend and running bootstrap
again on the result. -/
theorem bootstrap_idempotent_witness :
    initModel egKeyGen 7 "c" egStateBoot = .ok (egStateBoot, 7) :=
  (bootstrap_idempotent egKeyGen 0 "c" egStateEmpty egStateBoot 5 (by rfl)).1 egKeyGen 7

/-- C1 counterexample.  A user CA present with SSH signing key
material 5 and no TLS pairs: bootstrap succeeds and stores exactly one
TLS key pair, but its private key is the freshly generated 100, not
the key material 5 of the existing first SSH signing key (which parses
as 5) — the claim fails for the User CA. -/
theorem ca_backfill_counterexample :
    initModel egKeyGen 0 "c" egStateNoTLS = .ok (egStateNoTLSAfter, 1) ∧
    egStateNoTLS.userCA = some ⟨[5], [6], []⟩ ∧
    egKeyGen.parseRaw 5 = some 5 ∧
    egStateNoTLSAfter.userCA = some ⟨[5], [6], [⟨2100, 100⟩]⟩ ∧
    (100 : Nat) ≠ 5 := by
  refine ⟨by rfl, by rfl, by rfl, by rfl, by decide⟩

/-- C1 amended.  For an authority present at bootstrap with SSH
material but no TLS pairs, after Init succeeds the stored authority
has exactly one TLS key pair and its SSH keys are unchanged (no second
inconsistent root); for the Host CA the TLS private key is the parsed
material of the existing first SSH signing key, while for the User CA
the TLS key pair is freshly generated and need not match the SSH
key. -/
theorem ca_backfill_amended (g : CAKeyGen) (i : Nat) (cfg : String)
    (s s1 : BackendState) (i1 : Nat) (h : initModel g i cfg s = .ok (s1, i1)) :
    (∀ ca k rest, s.hostCA = some ca → ca.tlsKeyPairs = [] → ca.signingKeys = k :: rest →
      ∃ m, g.parseRaw k = some m ∧
        s1.hostCA = some { ca with tlsKeyPairs := [⟨g.certOf m, m⟩] }) ∧
    (∀ ca, s.userCA = some ca → ca.tlsKeyPairs = [] →
      ∃ n, s1.userCA = some { ca with tlsKeyPairs := [⟨g.certOf (g.fresh n), g.fresh n⟩] }) := by
  simp only [initModel] at h
  constructor
  · intro ca k rest hca htls hsig
    have hpre : (stepUserCA g (stepClusterID g i s).2
        (stepClusterName cfg (stepClusterID g i s).1)).1.hostCA = some ca := by
      rw [(stepUserCA_fields g _ _).2.1, (stepClusterName_fields cfg _).2.2.1,
        (stepClusterID_fields g i s).2.2.1, hca]
    rw [stepHostCA] at h
    rw [hpre] at h
    simp only [htls, if_pos, hsig] at h
    cases hm : g.parseRaw k with
    | none => simp only [hm] at h; exact absurd h (by simp)
    | some m =>
      simp only [hm] at h
      cases hrsa : g.isRSA m with
      | false => simp only [hrsa, if_false] at h; exact absurd h (by simp)
      | true =>
        simp only [hrsa, if_true, Except.ok.injEq, Prod.mk.injEq] at h
        obtain ⟨hs, _⟩ := h
        exact ⟨m, rfl, by rw [← hs, ← hsig]⟩
  · intro ca hca htls
    have huser := (stepHostCA_ok_fields g _ _ s1 i1 h).2.1
    have hpre : (stepClusterName cfg (stepClusterID g i s).1).userCA = some ca := by
      rw [(stepClusterName_fields cfg _).2.1, (stepClusterID_fields g i s).2.1, hca]
    refine ⟨(stepClusterID g i s).2, ?_⟩
    rw [huser]
    simp [stepUserCA, hpre, htls]

/-- C1 witness: the amended theorem instantiated at the concrete
pre-TLS backend, for its host CA. -/
theorem ca_backfill_amended_witness :
    ∃ m, egKeyGen.parseRaw 7 = some m ∧
      egStateNoTLSAfter.hostCA = some ⟨[7], [8], [⟨egKeyGen.certOf m, m⟩]⟩ :=
  (ca_backfill_amended egKeyGen 0 "c" egStateNoTLS egStateNoTLSAfter 1 (by rfl)).1
    ⟨[7], [8], []⟩ 7 [] (by rfl) (by rfl) (by rfl)

/-- C3.  Local-account protection: for a provisioning attempt whose
claims map to at least one role and whose federated email collides
with an existing user, a local existing user (no connector reference)
makes createOIDCUser fail with AlreadyExists leaving the user store
unchanged, while an existing externally-created user is overwritten by
the freshly generated record and the call succeeds. -/
theorem local_account_protection (conn : OIDCConnectorModel) (ident : OIDCIdent)
    (claims : Claims) (now : Int) (s : AuthState) (existing : UserV2)
    (hroles : mapClaims conn claims ≠ [])
    (hex : lookupUser s ident.email = some existing) :
    (existing.createdByConnector = none →
      createOIDCUser conn ident claims now s = (.error .alreadyExists, s)) ∧
    (∀ ref, existing.createdByConnector = some ref →
      createOIDCUser conn ident claims now s =
        (.ok (), upsertUser s (provisionedUser conn ident claims now)) ∧
      lookupUser (upsertUser s (provisionedUser conn ident claims now)) ident.email =
        some (provisionedUser conn ident claims now)) := by
  have hne : (mapClaims conn claims).isEmpty = false := by
    cases hmc : mapClaims conn claims with
    | nil => exact absurd hmc hroles
    | cons x t => rfl
  constructor
  · intro hnone
    simp [createOIDCUser, hne, hex, hnone]
  · intro ref href
    refine ⟨?_, ?_⟩
    · simp [createOIDCUser, hne, hex, href]
    · simp [lookupUser, upsertUser, provisionedUser]

/-- C3 witness: provisioning against a store holding a local user with
the same email fails with AlreadyExists and leaves the store
unchanged. -/
theorem local_account_protection_witness :
    createOIDCUser egConnectorMapped egIdent egClaims 0 egStateLocal =
      (.error .alreadyExists, egStateLocal) :=
  (local_account_protection egConnectorMapped egIdent egClaims 0 egStateLocal egLocalUser
    (by decide) (by rfl)).1 (by rfl)

/-- C2.  Subject confirmation: when claims are extracted from both the
ID token and UserInfo and their string sub claims differ, getClaims
fails with BadParameter, and the whole callback validation returns an
error (the OAuth2-shaped claims failure) with the backend state — in
particular the user store — unchanged, emitting one failure audit
event. -/
theorem subject_mismatch_aborts (env : CallbackEnv) (s : AuthState)
    (a b : Claims) (cn : String) (req : OIDCAuthRequest) (conn : OIDCConnectorModel)
    (hqe : env.qError = "") (hqc : env.qCode ≠ "") (hqs : env.qState ≠ "")
    (hcn : env.clusterName = .ok cn) (hreq : env.request = .ok req)
    (hconn : env.connector = .ok conn) (hcli : env.oidcClient = .ok ())
    (hoa : env.claimsEnv.oauthClient = .ok ())
    (hte : env.claimsEnv.tokenExchange = .ok ())
    (hid : env.claimsEnv.idTokenClaims = .ok a)
    (hui : env.claimsEnv.userInfoClaims = .ok b)
    (hta : (stringClaim a "sub").typeErr = false)
    (hpa : (stringClaim a "sub").present = true)
    (htb : (stringClaim b "sub").typeErr = false)
    (hpb : (stringClaim b "sub").present = true)
    (hne : (stringClaim a "sub").val ≠ (stringClaim b "sub").val) :
    getClaims env.claimsEnv conn.issuerURL conn.scope = .error .badParameter ∧
    ValidateOIDCAuthCallback env s = (.error .oauth2, s, [.loginFailure]) := by
  have h1 : getClaims env.claimsEnv conn.issuerURL conn.scope = .error .badParameter := by
    simp [getClaims, hoa, hte, hid, hui, hta, hpa, htb, hpb, hne]
  refine ⟨h1, ?_⟩
  simp [ValidateOIDCAuthCallback, validateOIDCAuthCallback,
    hqe, hqc, hqs, hcn, hreq, hconn, hcli, h1]

/-- C2 witness: the theorem instantiated at a concrete environment
whose ID token carries sub A and whose UserInfo carries sub B. -/
theorem subject_mismatch_aborts_witness :
    getClaims egCallbackEnvMismatch.claimsEnv egConnector.issuerURL egConnector.scope =
      .error .badParameter ∧
    ValidateOIDCAuthCallback egCallbackEnvMismatch egAuthState =
      (.error .oauth2, egAuthState, [.loginFailure]) :=
  subject_mismatch_aborts egCallbackEnvMismatch egAuthState
    [("sub", .str "A")] [("sub", .str "B")] "c" egRequest egConnector
    rfl (by decide) (by decide) rfl rfl rfl rfl rfl rfl rfl rfl
    rfl rfl rfl rfl (by decide)

/-- C10.  When the UserInfo endpoint is available but the ID-token
claims (or the UserInfo claims) contain no string sub claim and the
claim lookup reports no type error, getClaims returns a nil claim map
with a nil error — modelled as a success carrying no claims — and the
callback validation proceeds into the post-claims sequence with that
nil claim set rather than returning the claims-construction error. -/
theorem missing_sub_nil_claims (env : CallbackEnv) (s : AuthState)
    (a b : Claims) (cn : String) (req : OIDCAuthRequest) (conn : OIDCConnectorModel)
    (hqe : env.qError = "") (hqc : env.qCode ≠ "") (hqs : env.qState ≠ "")
    (hcn : env.clusterName = .ok cn) (hreq : env.request = .ok req)
    (hconn : env.connector = .ok conn) (hcli : env.oidcClient = .ok ())
    (hoa : env.claimsEnv.oauthClient = .ok ())
    (hte : env.claimsEnv.tokenExchange = .ok ())
    (hid : env.claimsEnv.idTokenClaims = .ok a)
    (hui : env.claimsEnv.userInfoClaims = .ok b)
    (hsub : ((stringClaim a "sub").typeErr = false ∧ (stringClaim a "sub").present = false) ∨
      ((stringClaim a "sub").typeErr = false ∧ (stringClaim a "sub").present = true ∧
        (stringClaim b "sub").typeErr = false ∧ (stringClaim b "sub").present = false)) :
    getClaims env.claimsEnv conn.issuerURL conn.scope = .ok none ∧
    validateOIDCAuthCallback env s = afterClaims env s req conn none := by
  have h1 : getClaims env.claimsEnv conn.issuerURL conn.scope = .ok none := by
    rcases hsub with ⟨hta, hpa⟩ | ⟨hta, hpa, htb, hpb⟩
    · simp [getClaims, hoa, hte, hid, hui, hta, hpa]
    · simp [getClaims, hoa, hte, hid, hui, hta, hpa, htb, hpb]
  refine ⟨h1, ?_⟩
  simp [validateOIDCAuthCallback, hqe, hqc, hqs, hcn, hreq, hconn, hcli, h1]

/-- C10 witness: the theorem instantiated at a concrete environment
whose ID token has no sub claim. -/
theorem missing_sub_nil_claims_witness :
    getClaims egCallbackEnvNoSub.claimsEnv egConnector.issuerURL egConnector.scope =
      .ok none ∧
    validateOIDCAuthCallback egCallbackEnvNoSub egAuthState =
      afterClaims egCallbackEnvNoSub egAuthState egRequest egConnector none :=
  missing_sub_nil_claims egCallbackEnvNoSub egAuthState
    [("email", .str "x")] egClaims "c" egRequest egConnector
    rfl (by decide) (by decide) rfl rfl rfl rfl rfl rfl rfl rfl
    (Or.inl ⟨rfl, rfl⟩)

/-- C5.  TTL negotiation in the callback: on the path that resolves a
user, creates a web session and certifies a supplied public key, the
certificate is issued under TTL min(remaining identity lifetime,
requested certificate TTL), the session expires after the
role-set-adjusted remaining identity lifetime, and the bearer token
after min(bearer ceiling, session TTL); in particular a remaining
lifetime of one minute with a requested TTL of one hour yields a
one-minute certificate TTL, and a one-minute session TTL under any
role policy of at least one minute. -/
theorem ttl_negotiation (env : CallbackEnv) (s : AuthState) (cn : String)
    (req : OIDCAuthRequest) (conn : OIDCConnectorModel) (claims : Claims)
    (ident : OIDCIdent) (user : UserV2) (roles : RoleSet) (authority : CertAuthority)
    (hqe : env.qError = "") (hqc : env.qCode ≠ "") (hqs : env.qState ≠ "")
    (hcn : env.clusterName = .ok cn) (hreq : env.request = .ok req)
    (hconn : env.connector = .ok conn) (hcli : env.oidcClient = .ok ())
    (hclaims : getClaims env.claimsEnv conn.issuerURL conn.scope = .ok (some claims))
    (hacr : conn.acr = "")
    (hident : env.identFromClaims (some claims) = .ok ident)
    (hmap : conn.claimsToRoles = [])
    (hcheck : req.checkUser = true)
    (huser : getUserByOIDCIdentity s ⟨req.connectorID, ident.email⟩ = some user)
    (hroles : env.fetchRoles user.roles user.traits = .ok roles)
    (hsess : req.createWebSession = true)
    (hpk : req.publicKey ≠ [])
    (hgen : env.genCert = .ok ())
    (hca : env.hostCAFetch = .ok authority) :
    validateOIDCAuthCallback env s =
      (.ok { username := user.name, identity := ⟨conn.name, ident.email⟩,
             session := some (⟨env.newSessionToken,
               env.now + adjustSessionTTL roles (toTTL env.now ident.expiresAt),
               env.now +
                 minTTL bearerTokenTTL (adjustSessionTTL roles (toTTL env.now ident.expiresAt))⟩ :
                 WebSessionModel),
             certIssued := some ⟨minTTL (toTTL env.now ident.expiresAt) req.certTTL,
               req.publicKey⟩,
             hostSigners := [authority], req := req },
       upsertSession s user.name ⟨env.newSessionToken,
         env.now + adjustSessionTTL roles (toTTL env.now ident.expiresAt),
         env.now +
           minTTL bearerTokenTTL (adjustSessionTTL roles (toTTL env.now ident.expiresAt))⟩) ∧
    minTTL (toTTL 0 60) 3600 = 60 ∧
    (∀ rs : RoleSet, (60 : Int) ≤ rs.maxSessionTTL → adjustSessionTTL rs (toTTL 0 60) = 60) := by
  refine ⟨?_, by simp [minTTL, toTTL], ?_⟩
  · have hpk2 : req.publicKey.isEmpty = false := by
      cases hl : req.publicKey with
      | nil => exact absurd hl hpk
      | cons x t => rfl
    simp [validateOIDCAuthCallback, afterClaims, hqe, hqc, hqs, hcn, hreq, hconn, hcli,
      hclaims, hacr, hident, hmap, hcheck, huser, hroles, hsess, hpk2, hgen, hca]
  · intro rs hrs
    simp only [adjustSessionTTL, toTTL]
    omega

/-- C5 witness: the theorem instantiated at the concrete happy-path
environment with identity expiring at 60, now 0, requested certificate
TTL 3600. -/
theorem ttl_negotiation_witness :
    validateOIDCAuthCallback egCallbackEnv egAuthState =
      (.ok { username := "foo@example.com",
             identity := ⟨"oidcService", "foo@example.com"⟩,
             session := some (⟨"tok",
               0 + adjustSessionTTL ⟨18000⟩ (toTTL 0 60),
               0 + minTTL bearerTokenTTL (adjustSessionTTL ⟨18000⟩ (toTTL 0 60))⟩ :
                 WebSessionModel),
             certIssued := some ⟨minTTL (toTTL 0 60) 3600, [9]⟩,
             hostSigners := [⟨[1], [2], [⟨3, 4⟩]⟩], req := egRequest },
       upsertSession egAuthState "foo@example.com" ⟨"tok",
         0 + adjustSessionTTL ⟨18000⟩ (toTTL 0 60),
         0 + minTTL bearerTokenTTL (adjustSessionTTL ⟨18000⟩ (toTTL 0 60))⟩) :=
  (ttl_negotiation egCallbackEnv egAuthState "c" egRequest egConnector egClaims
    ⟨"foo@example.com", 60⟩ egUser ⟨18000⟩ ⟨[1], [2], [⟨3, 4⟩]⟩
    rfl (by decide) (by decide) rfl rfl rfl rfl rfl rfl rfl rfl rfl rfl rfl rfl
    (by decide) rfl rfl).1

end Teleport
